import Mathlib

/-!
Shallow embedding of the command-execution core of
src/src/simple_bash_mcp/server.py (a bash MCP server).

Python strings are modelled as Lean String values; the Python string
primitives used by the source (str.strip, str.split with no argument,
substring containment via the in operator, sorted) are implemented here by
structural recursion over the underlying code-point list, matching the
Python semantics (a Python str is a sequence of code points).

Side effects (filesystem access, process spawning, signals, time) are
modelled by explicit parameters and by traces of events: each point where
the source consults the outside world becomes an argument of the embedded
function, and each externally visible action of the source becomes an
event in a returned list.
-/

namespace SimpleBashMcp

/-- Python str.strip() on a code-point list: drop whitespace from both ends. -/
def pyStripChars (l : List Char) : List Char :=
  ((l.dropWhile Char.isWhitespace).reverse.dropWhile Char.isWhitespace).reverse

/-- Python command_str.strip(). -/
def pyStrip (s : String) : String :=
  ⟨pyStripChars s.data⟩

/-- Python str.split() with no separator: split on runs of whitespace and
drop empty pieces.  The accumulator holds the current token reversed. -/
def pySplitChars : List Char → List Char → List (List Char)
  | [], acc => if acc = [] then [] else [acc.reverse]
  | c :: cs, acc =>
    if c.isWhitespace then
      if acc = [] then pySplitChars cs []
      else acc.reverse :: pySplitChars cs []
    else pySplitChars cs (c :: acc)

/-- Python s.split() on a Lean String. -/
def pySplitWS (s : String) : List String :=
  (pySplitChars s.data []).map (fun cs => ⟨cs⟩)

/-- Helper for Python substring containment: does sub occur in the list? -/
def pyContainsAux (sub : List Char) : List Char → Bool
  | [] => sub.isEmpty
  | c :: cs => sub.isPrefixOf (c :: cs) || pyContainsAux sub cs

/-- Python membership test sub in s on strings. -/
def pyContains (s sub : String) : Bool :=
  pyContainsAux sub.data s.data

/-- Lexicographic order on code-point lists, as Python compares strings. -/
def pyLexLe : List Char → List Char → Bool
  | [], _ => true
  | _ :: _, [] => false
  | a :: as, b :: bs => if a < b then true else if b < a then false else pyLexLe as bs

/-- Python string comparison a <= b. -/
def pyStrLe (a b : String) : Bool :=
  pyLexLe a.data b.data

/-- Insert into an already sorted list, keeping it sorted. -/
def insertSorted (x : String) : List String → List String
  | [] => [x]
  | y :: ys => if pyStrLe x y then x :: y :: ys else y :: insertSorted x ys

/-- Python sorted() on a list of strings (insertion sort; stable, and
order agrees with Python lexicographic string order). -/
def pySorted : List String → List String
  | [] => []
  | x :: xs => insertSorted x (pySorted xs)

/-- The configuration snapshot read from config.json.  The source reads
config["allowedCommands"] and config["allowedDirectories"] directly and
uses config.get("validateCommandsStrictly", True) and
config.get("maxOutputSize", 1048576); the .get defaults are applied when
this record is built from the parsed file. -/
structure Config where
  allowedCommands : List String
  allowedDirectories : List String
  validateCommandsStrictly : Bool
  maxOutputSize : Nat
deriving DecidableEq

/-- The result dictionary returned by execute_command. -/
structure ExecutionResult where
  success : Bool
  output : String
  error : String
  exitCode : Int
  command : String
deriving DecidableEq

/-- The fixed injection-indicator substrings of validate_command, in the
order the source scans them (the fourth entry is the backtick). -/
def injection_patterns : List String :=
  [";", "&&", "||", "\x60", "$(", ">", "<", "|", "#"]

/-- The CommandNotAllowed message built by validate_command. -/
def command_not_allowed_message (base_command : String) (cfg : Config) : String :=
  "Command \x27" ++ base_command ++ "\x27 is not in the allowed commands list.\n\nAllowed commands are: "
    ++ String.intercalate ", " (pySorted cfg.allowedCommands)

/-- The InjectionDetected message built by validate_command for the
offending pattern. -/
def injection_message (pattern : String) : String :=
  "Potential command injection detected: \x27" ++ pattern
    ++ "\x27\n\nThe following characters are not allowed when strict validation is enabled: "
    ++ String.intercalate ", " (injection_patterns.map (fun p => "\x27" ++ p ++ "\x27"))

/-- The base command of validate_command: command_str.strip().split()[0].
Python raises IndexError when the split list is empty; none models that
raise. -/
def base_command_of (command_str : String) : Option String :=
  (pySplitWS (pyStrip command_str)).head?

/-- validate_command from the source.  Returns none when the Python code
raises (IndexError from split()[0] on a command that is empty after
stripping), otherwise some (valid, message) exactly as the source returns
the pair. -/
def validate_command (cfg : Config) (command_str : String) : Option (Bool × String) :=
  match base_command_of command_str with
  | none => none
  | some base_command =>
    if base_command ∉ cfg.allowedCommands then
      some (false, command_not_allowed_message base_command cfg)
    else if cfg.validateCommandsStrictly then
      match injection_patterns.find? (fun pattern => pyContains command_str pattern) with
      | some pattern => some (false, injection_message pattern)
      | none => some (true, "")
    else some (true, "")

/-- The DirectoryNotAllowed message built by validate_directory. -/
def directory_not_allowed_message (directory : String) (cfg : Config) : String :=
  "Directory \x27" ++ directory ++ "\x27 is not in the allowed directories list.\n\nAllowed directories are:\n- "
    ++ String.intercalate "\n- " cfg.allowedDirectories
    ++ "\n\nNote: Subdirectories of these allowed directories are also permitted."

/-- validate_directory from the source.  Path(p).resolve() is abstracted
as a caller-supplied canonicalization function resolve, returning the
component list of the absolute, symlink-free path (the root is the empty
list).  allowed_path in directory_path.parents holds exactly when the
resolved allowed path is a proper prefix of the resolved directory. -/
def validate_directory (resolve : String → List String) (cfg : Config)
    (directory : String) : Bool × String :=
  if cfg.allowedDirectories.any (fun allowed_dir =>
      resolve allowed_dir == resolve directory
        || ((resolve allowed_dir).isPrefixOf (resolve directory)
              && (resolve allowed_dir).length < (resolve directory).length)) then
    (true, "")
  else
    (false, directory_not_allowed_message directory cfg)

/-- Combining stdout and stderr as the completion path of execute_command
does: output = stdout_str, then, when stderr_str is non-empty,
output += "\nSTDERR:\n" + stderr_str. -/
def combined_output (stdout_str stderr_str : String) : String :=
  if stderr_str ≠ "" then stdout_str ++ "\nSTDERR:\n" ++ stderr_str else stdout_str

/-- The size limit of execute_command:
if len(output) > max_size: output = output[:max_size] + "\n... [OUTPUT TRUNCATED]".
Python len and slicing act on code points, which String.length and
String.take mirror. -/
def truncate_output (output : String) (max_size : Nat) : String :=
  if output.length > max_size then output.take max_size ++ "\n... [OUTPUT TRUNCATED]"
  else output

/-- The result dictionary built on the completion (non-timeout) path of
execute_command, from the child exit code and the captured stdout and
stderr texts. -/
def completion_result (command : String) (exit_code : Int)
    (stdout_str stderr_str : String) (max_size : Nat) : ExecutionResult :=
  { success := exit_code == 0
    output := truncate_output (combined_output stdout_str stderr_str) max_size
    error := if exit_code != 0 then stderr_str else ""
    exitCode := exit_code
    command := command }

/-- Line 161 of the source: timeout_sec = timeout if timeout else None.
A numeric Python value is falsy exactly when it equals zero. -/
def pyTimeoutSec (timeout : Option ℚ) : Option ℚ :=
  match timeout with
  | none => none
  | some t => if t = 0 then none else some t

/-- asyncio.wait_for semantics for the wait on the child: with timeout
None the wait never times out; with a numeric timeout it times out when
the child needs longer than the timeout. -/
def wait_times_out (run_duration : ℚ) (timeout_sec : Option ℚ) : Bool :=
  match timeout_sec with
  | none => false
  | some t => decide (t < run_duration)

/-- Rendering of timeout_sec inside the timeout error f-string; Python
prints None for an absent value and the numeral otherwise. -/
def timeoutRepr : Option ℚ → String
  | none => "None"
  | some t => toString t

/-- The result dictionary built on the timeout path of execute_command. -/
def timeout_result (command : String) (timeout_sec : Option ℚ) : ExecutionResult :=
  { success := false
    output := ""
    error := "Command execution timed out after " ++ timeoutRepr timeout_sec ++ " seconds"
    exitCode := -1
    command := command }

/-- The two temporary capture files of one execute_command invocation.
tempfile.NamedTemporaryFile is called with
prefix = "mcp_cmd_output_" + uuid + "_" (resp. "mcp_cmd_error_") and
suffix = ".txt"; the tempfile module appends a random token between
prefix and suffix and places the file under the system temp directory. -/
structure TempFiles where
  output_file : String
  error_file : String
deriving DecidableEq

/-- Allocation of the two capture files, with the uuid4 values and the
tempfile random tokens supplied as parameters. -/
def allocate_temp_files (tmpdir output_uuid output_rand error_uuid error_rand : String) :
    TempFiles :=
  { output_file := tmpdir ++ ("/mcp_cmd_output_" ++ (output_uuid ++ "_" ++ output_rand ++ ".txt"))
    error_file := tmpdir ++ ("/mcp_cmd_error_" ++ (error_uuid ++ "_" ++ error_rand ++ ".txt")) }

/-- The temp files created by one invocation, as a list of paths. -/
def session_files (t : TempFiles) : List String :=
  [t.output_file, t.error_file]

/-- The characters Python shlex.quote leaves unquoted: ASCII word
characters plus at-sign, percent, plus, equals, colon, comma, dot, slash
and hyphen. -/
def shlexSafeChar (c : Char) : Bool :=
  c.isAlphanum || c = '_' || c = '@' || c = '%' || c = '+' || c = '=' || c = ':'
    || c = ',' || c = '.' || c = '/' || c = '-'

/-- Python shlex.quote: the empty string becomes a pair of single quotes,
a string of safe characters is returned unchanged, and anything else is
wrapped in single quotes with each inner single quote replaced by the
quote-escape sequence. -/
def shlex_quote (s : String) : String :=
  if s = "" then "\x27\x27"
  else if s.data.all shlexSafeChar then s
  else "\x27" ++ ⟨s.data.flatMap (fun c => if c = '\x27' then "\x27\"\x27\"\x27".data else [c])⟩ ++ "\x27"

/-- The wrapper command string of the source (line 194): it is passed in
memory as the argument of /bin/bash -c, not written to a file. -/
def bash_script (cwd command output_file error_file : String) : String :=
  "cd " ++ shlex_quote cwd ++ " && TERM=dumb /bin/bash -l -c " ++ shlex_quote command
    ++ " > " ++ shlex_quote output_file ++ " 2> " ++ shlex_quote error_file

/-- Externally visible actions of the sandbox runner, in program order. -/
inductive SandboxEvent
  | sigtermGroup
  | graceSleep (seconds : Nat)
  | sigkillGroup
  | killLeader
  | removeTempFile (path : String)
deriving DecidableEq

/-- self_cleanup_tempfiles: remove the output file, then the error file,
each attempt guarded so that a missing file or a removal error never
raises. -/
def cleanup_events (t : TempFiles) : List SandboxEvent :=
  [.removeTempFile t.output_file, .removeTempFile t.error_file]

/-- The timeout branch of execute_command: os.killpg(..., SIGTERM), then
await asyncio.sleep(1), then os.killpg(..., SIGKILL) when process.poll()
is still None; the whole signalling block sits in a try whose except only
logs, and self_cleanup_tempfiles always follows.  sigterm_raises models
the first killpg raising (the except then skips the rest of the block). -/
def timeout_events (t : TempFiles) (sigterm_raises still_alive : Bool) : List SandboxEvent :=
  (if sigterm_raises then [.sigtermGroup]
   else [.sigtermGroup, .graceSleep 1] ++ (if still_alive then [.sigkillGroup] else []))
    ++ cleanup_events t

/-- How the environment resolves one execute_command invocation after
validation has passed: temp-file allocation failed (output_created says
whether the first NamedTemporaryFile call had succeeded), the child
completed with an exit code and captured texts, the wait timed out, or
the spawn/wait machinery raised. -/
inductive RunOutcome
  | allocFailed (output_created : Bool) (msg : String)
  | completed (exit_code : Int) (stdout_str stderr_str : String)
  | timedOut (sigterm_raises still_alive : Bool)
  | waitError (msg : String)
deriving DecidableEq

/-- The temp-file and signal events of the run phase, per outcome: the
allocation except block unlinks whatever was already created; the
completion path cleans up in a finally; the timeout path signals then
cleans up; the generic except kills the leader defensively and cleans
up. -/
def run_events (t : TempFiles) : RunOutcome → List SandboxEvent
  | .allocFailed output_created _ =>
    if output_created then [.removeTempFile t.output_file] else []
  | .completed _ _ _ => cleanup_events t
  | .timedOut sigterm_raises still_alive => timeout_events t sigterm_raises still_alive
  | .waitError _ => .killLeader :: cleanup_events t

/-- The module-level state of the configuration machinery: the config
dictionary and config_last_modified. -/
structure ConfigState where
  config : Config
  config_last_modified : Nat
deriving DecidableEq

/-- load_config from the source, as a state transformer.  parsed is the
outcome of open + json.load (an exception for a missing, unreadable or
unparseable file); new_mtime_res is the outcome of the os.path.getmtime
call that follows the assignment to config.  The Bool reports whether the
function returned normally; on an exception the returned state is the
state the globals were left in (the config assignment has already
happened when only the trailing getmtime raises). -/
def load_config (parsed : Except String Config) (new_mtime_res : Except String Nat)
    (st : ConfigState) : ConfigState × Bool :=
  match parsed with
  | .error _ => (st, false)
  | .ok cfg =>
    match new_mtime_res with
    | .error _ => ({ st with config := cfg }, false)
    | .ok m => ({ config := cfg, config_last_modified := m }, true)

/-- check_config_updates from the source: getmtime the config file (any
exception is caught and reported as False), compare with
config_last_modified, reload via load_config when strictly newer, and
catch any exception from the reload, again reporting False. -/
def check_config_updates (mtime_res : Except String Nat) (parsed : Except String Config)
    (new_mtime_res : Except String Nat) (st : ConfigState) : ConfigState × Bool :=
  match mtime_res with
  | .error _ => (st, false)
  | .ok current_mtime =>
    if st.config_last_modified < current_mtime then
      load_config parsed new_mtime_res st
    else (st, false)

/-- execute_command from the source.  resolve abstracts Path.resolve;
outcome abstracts everything the environment decides inside the try block
that starts after directory validation.  none models an exception
escaping execute_command itself: the only way that happens is
validate_command raising, because that call sits before the try block and
every path inside the try converts its exception into a result
dictionary. -/
def execute_command (resolve : String → List String) (cfg : Config)
    (command cwd : String) (timeout : Option ℚ) (outcome : RunOutcome) :
    Option ExecutionResult :=
  match validate_command cfg command with
  | none => none
  | some (false, cmd_error) =>
    some { success := false, error := cmd_error, output := "", exitCode := 1, command := command }
  | some (true, _) =>
    match validate_directory resolve cfg cwd with
    | (false, dir_error) =>
      some { success := false, error := dir_error, output := "", exitCode := 1, command := command }
    | (true, _) =>
      match outcome with
      | .allocFailed _ msg =>
        some { success := false, output := "", error := "Error executing command: " ++ msg,
               exitCode := -1, command := command }
      | .completed exit_code stdout_str stderr_str =>
        some (completion_result command exit_code stdout_str stderr_str cfg.maxOutputSize)
      | .timedOut _ _ => some (timeout_result command (pyTimeoutSec timeout))
      | .waitError msg =>
        some { success := false, output := "", error := "Error executing command: " ++ msg,
               exitCode := -1, command := command }

/-- A concrete policy for witnesses: the scenario configuration of the
spec (allowedCommands ls, allowedDirectories /tmp, strict validation,
default output limit). -/
def sampleConfig : Config :=
  { allowedCommands := ["ls"]
    allowedDirectories := ["/tmp"]
    validateCommandsStrictly := true
    maxOutputSize := 1048576 }

/-- A concrete canonicalization table for witnesses. -/
def sample_resolve (p : String) : List String :=
  if p = "/tmp" then ["tmp"]
  else if p = "/tmp/x" then ["tmp", "x"]
  else if p = "/etc" then ["etc"]
  else ["?", p]

/-! ## Helper lemmas about the Python string primitives -/

theorem mem_dropWhile_of_not {p : Char → Bool} :
    ∀ {l : List Char} {c : Char}, c ∈ l → p c = false → c ∈ l.dropWhile p := by
  intro l
  induction l with
  | nil => intro c h _; cases h
  | cons x xs ih =>
    intro c hc hpc
    by_cases hx : p x = true
    · rw [List.dropWhile_cons_of_pos hx]
      rcases List.mem_cons.mp hc with rfl | hmem
      · rw [hx] at hpc; cases hpc
      · exact ih hmem hpc
    · rw [List.dropWhile_cons_of_neg hx]
      exact hc

theorem mem_pyStripChars {l : List Char} {c : Char} (hc : c ∈ l)
    (hws : c.isWhitespace = false) : c ∈ pyStripChars l := by
  unfold pyStripChars
  have h1 : c ∈ l.dropWhile Char.isWhitespace := mem_dropWhile_of_not hc hws
  have h2 : c ∈ (l.dropWhile Char.isWhitespace).reverse := List.mem_reverse.mpr h1
  have h3 := mem_dropWhile_of_not h2 hws
  exact List.mem_reverse.mpr h3

theorem pySplitChars_ne_nil :
    ∀ (l acc : List Char), ((∃ c ∈ l, c.isWhitespace = false) ∨ acc ≠ []) →
      pySplitChars l acc ≠ [] := by
  intro l
  induction l with
  | nil =>
    intro acc h
    rcases h with ⟨c, hc, _⟩ | hacc
    · cases hc
    · simp [pySplitChars, hacc]
  | cons x xs ih =>
    intro acc h
    by_cases hx : x.isWhitespace
    · by_cases hacc : acc = []
      · have hres : pySplitChars (x :: xs) acc = pySplitChars xs [] := by
          simp [pySplitChars, hx, hacc]
        rw [hres]
        apply ih
        left
        rcases h with ⟨c, hc, hcw⟩ | h2
        · rcases List.mem_cons.mp hc with rfl | hmem
          · rw [hx] at hcw; cases hcw
          · exact ⟨c, hmem, hcw⟩
        · exact absurd hacc h2
      · have hres : pySplitChars (x :: xs) acc = acc.reverse :: pySplitChars xs [] := by
          simp [pySplitChars, hx, hacc]
        rw [hres]
        exact List.cons_ne_nil _ _
    · have hres : pySplitChars (x :: xs) acc = pySplitChars xs (x :: acc) := by
        simp [pySplitChars, hx]
      rw [hres]
      exact ih _ (Or.inr (List.cons_ne_nil _ _))

theorem head_mem_of_pyContainsAux {x : Char} {xs : List Char} :
    ∀ {l : List Char}, pyContainsAux (x :: xs) l = true → x ∈ l := by
  intro l
  induction l with
  | nil => intro h; simp [pyContainsAux, List.isEmpty] at h
  | cons c cs ih =>
    intro h
    have h' : (x :: xs).isPrefixOf (c :: cs) = true ∨ pyContainsAux (x :: xs) cs = true := by
      simpa [pyContainsAux] using h
    rcases h' with hpre | hrec
    · have hp : (x :: xs) <+: (c :: cs) := List.isPrefixOf_iff_prefix.mp hpre
      obtain ⟨t, ht⟩ := hp
      have hx : x = c := by
        have := ht
        simp only [List.cons_append] at this
        exact (List.cons.injEq _ _ _ _ ▸ this).1
      exact hx ▸ List.mem_cons_self _ _
    · exact List.mem_cons_of_mem _ (ih hrec)

theorem base_command_some_of_nonws {s : String}
    (h : ∃ c ∈ s.data, c.isWhitespace = false) :
    ∃ b, base_command_of s = some b := by
  obtain ⟨c, hc, hcw⟩ := h
  have h1 : c ∈ pyStripChars s.data := mem_pyStripChars hc hcw
  have h2 : pySplitChars (pyStripChars s.data) [] ≠ [] :=
    pySplitChars_ne_nil _ _ (Or.inl ⟨c, h1, hcw⟩)
  unfold base_command_of pySplitWS pyStrip
  cases hsp : pySplitChars (pyStripChars s.data) [] with
  | nil => exact absurd hsp h2
  | cons y ys => exact ⟨⟨y⟩, by simp [hsp]⟩

theorem injection_patterns_chars :
    ∀ p ∈ injection_patterns, p.data ≠ [] ∧ ∀ c ∈ p.data, c.isWhitespace = false := by
  decide

/-! ## Claims C1 to C3 -/

/-- C1: refuted by the code.  The claim says execute_command converts every
failure on every input, including empty or whitespace-only command strings,
into a structured ExecutionResult and never lets an exception escape.  In
the source, validate_command is called before the try block, and for a
whitespace-only command command_str.strip().split()[0] raises IndexError
(split of an empty string is the empty list), so the exception propagates
out of execute_command: the embedded function returns none (no result
object) for every configuration, resolver, timeout and run outcome. -/
theorem execute_command_blank_command_raises :
    ∀ (resolve : String → List String) (cfg : Config) (cwd : String)
      (timeout : Option ℚ) (outcome : RunOutcome),
      execute_command resolve cfg "   " cwd timeout outcome = none :=
  fun _ _ _ _ _ => rfl

/-- C2: refuted by the code.  The claim says a command that is empty after
trimming fails the same way as a non-allowlisted command, with a
CommandNotAllowed rejection.  In the source, command_str.strip().split()
is the empty list for such input, so split()[0] raises IndexError instead
of returning the (False, message) pair: the embedded validate_command
returns none (the raise), not some (false, message), for every
configuration. -/
theorem validate_command_empty_raises :
    ∀ cfg : Config, validate_command cfg "" = none :=
  fun _ => rfl

/-- C3: when strictValidation is true, every command string containing one
of the nine injection-indicator substrings is rejected by validate_command
(it never returns a pass), regardless of allowlist membership; and when
the base command is allowlisted, the rejection is the InjectionDetected
message naming the first matching pattern in the fixed scan order (the
first match is exactly what List.find? over injection_patterns yields). -/
theorem validate_command_strict_rejects_injection :
    ∀ (cfg : Config) (command_str : String),
      cfg.validateCommandsStrictly = true →
      (∃ p ∈ injection_patterns, pyContains command_str p = true) →
      (∃ m, validate_command cfg command_str = some (false, m)) ∧
      (∀ base pattern, base_command_of command_str = some base →
        base ∈ cfg.allowedCommands →
        injection_patterns.find? (fun q => pyContains command_str q) = some pattern →
        validate_command cfg command_str = some (false, injection_message pattern)) := by
  intro cfg s hstrict hex
  have hbase : ∃ b, base_command_of s = some b := by
    obtain ⟨p, hp, hcont⟩ := hex
    obtain ⟨hpne, hpnw⟩ := injection_patterns_chars p hp
    cases hpd : p.data with
    | nil => exact absurd hpd hpne
    | cons x xs =>
      have hcont' : pyContainsAux (x :: xs) s.data = true := by
        rw [← hpd]; exact hcont
      have hxmem : x ∈ s.data := head_mem_of_pyContainsAux hcont'
      have hxnw : x.isWhitespace = false := hpnw x (hpd ▸ List.mem_cons_self _ _)
      exact base_command_some_of_nonws ⟨x, hxmem, hxnw⟩
  obtain ⟨b, hb⟩ := hbase
  have hfind : ∃ q, injection_patterns.find? (fun q => pyContains s q) = some q := by
    obtain ⟨p, hp, hcont⟩ := hex
    have := List.find?_isSome.mpr ⟨p, hp, hcont⟩
    exact Option.isSome_iff_exists.mp this
  obtain ⟨q, hq⟩ := hfind
  constructor
  · by_cases hmem : b ∈ cfg.allowedCommands
    · refine ⟨injection_message q, ?_⟩
      unfold validate_command
      rw [hb]
      simp only [hmem, not_true_eq_false, if_false, hstrict, if_true, hq]
    · refine ⟨command_not_allowed_message b cfg, ?_⟩
      unfold validate_command
      rw [hb]
      simp only [hmem, not_false_eq_true, if_true]
  · intro base pattern hbase' hmem hfind'
    unfold validate_command
    rw [hbase']
    have hmem' : base ∉ cfg.allowedCommands ↔ False := iff_false_intro (not_not_intro hmem)
    simp only [hmem, not_true_eq_false, if_false, hstrict, if_true, hfind']

set_option maxRecDepth 8000

/-- Witness for C3 at the spec scenario policy: the allowlisted command
ls with a redirection is rejected with the InjectionDetected message for
the greater-than sign, the first matching pattern in scan order. -/
theorem validate_command_strict_rejects_injection_witness :
    validate_command sampleConfig "ls -la > f" = some (false, injection_message ">") :=
  (validate_command_strict_rejects_injection sampleConfig "ls -la > f" rfl
    ⟨">", by decide, by decide⟩).2 "ls" ">" (by decide) (by decide) (by decide)

/-! ## Claim C4 -/

theorem length_lt_iff_ne_of_prefix {α : Type _} {p d : List α} (h : p <+: d) :
    p.length < d.length ↔ p ≠ d := by
  obtain ⟨t, rfl⟩ := h
  constructor
  · intro hlt heq
    have h1 := congrArg List.length heq
    rw [List.length_append] at h1
    rw [List.length_append] at hlt
    omega
  · intro hne
    rw [List.length_append]
    have ht : t ≠ [] := fun h0 => hne (by simp [h0])
    have := List.length_pos.mpr ht
    omega

theorem dir_cond_iff (resolve : String → List String) (directory allowed_dir : String) :
    (resolve allowed_dir == resolve directory
        || ((resolve allowed_dir).isPrefixOf (resolve directory)
              && (resolve allowed_dir).length < (resolve directory).length)) = true ↔
      (resolve allowed_dir = resolve directory ∨
        (resolve allowed_dir <+: resolve directory ∧ resolve allowed_dir ≠ resolve directory)) := by
  rw [Bool.or_eq_true, beq_iff_eq, Bool.and_eq_true, decide_eq_true_eq,
    List.isPrefixOf_iff_prefix]
  exact or_congr Iff.rfl (and_congr_right fun hpre => length_lt_iff_ne_of_prefix hpre)

/-- C4: validate_directory, with Path.resolve abstracted as an arbitrary
canonicalization function, passes exactly when the canonicalized requested
directory equals the canonicalization of one of the allowed directories or
is a descendant of one (the allowed path is a proper prefix of its
component list), and on failure the message is the DirectoryNotAllowed
text listing the allowed directories. -/
theorem validate_directory_spec :
    ∀ (resolve : String → List String) (cfg : Config) (directory : String),
      ((validate_directory resolve cfg directory).1 = true ↔
        ∃ allowed_dir ∈ cfg.allowedDirectories,
          resolve allowed_dir = resolve directory ∨
            (resolve allowed_dir <+: resolve directory ∧
              resolve allowed_dir ≠ resolve directory)) ∧
      ((validate_directory resolve cfg directory).1 = false →
        (validate_directory resolve cfg directory).2
          = directory_not_allowed_message directory cfg) := by
  intro resolve cfg directory
  by_cases hC : cfg.allowedDirectories.any (fun allowed_dir =>
      resolve allowed_dir == resolve directory
        || ((resolve allowed_dir).isPrefixOf (resolve directory)
              && (resolve allowed_dir).length < (resolve directory).length)) = true
  · constructor
    · rw [show (validate_directory resolve cfg directory).1 = true from by
        simp [validate_directory, hC]]
      simp only [true_iff]
      obtain ⟨a, ha, hfa⟩ := List.any_eq_true.mp hC
      exact ⟨a, ha, (dir_cond_iff resolve directory a).mp hfa⟩
    · intro hfalse
      rw [show (validate_directory resolve cfg directory).1 = true from by
        simp [validate_directory, hC]] at hfalse
      cases hfalse
  · have hC' : cfg.allowedDirectories.any (fun allowed_dir =>
        resolve allowed_dir == resolve directory
          || ((resolve allowed_dir).isPrefixOf (resolve directory)
                && (resolve allowed_dir).length < (resolve directory).length)) = false :=
      Bool.eq_false_iff.mpr hC
    constructor
    · rw [show (validate_directory resolve cfg directory).1 = false from by
        simp [validate_directory, hC']]
      simp only [Bool.false_eq_true, false_iff]
      intro ⟨a, ha, hP⟩
      exact hC (List.any_eq_true.mpr ⟨a, ha, (dir_cond_iff resolve directory a).mpr hP⟩)
    · intro _
      simp [validate_directory, hC']

/-- Witness for C4: /tmp/x canonicalizes below the allowed /tmp, so the
directory check passes. -/
theorem validate_directory_spec_witness :
    (validate_directory sample_resolve sampleConfig "/tmp/x").1 = true :=
  (validate_directory_spec sample_resolve sampleConfig "/tmp/x").1.mpr
    ⟨"/tmp", by decide, Or.inr ⟨by decide, by decide⟩⟩

/-! ## Claim C5 -/

/-- C5: refuted as stated.  The claim says that on a non-zero exit the
errorMessage carries the captured stderr text when available, otherwise a
generic message.  On the completion path the source sets
error = stderr_str if exit_code != 0 else "", so a failing child with an
empty stderr capture yields an empty error field, not a generic message:
at exit code 1 with empty stderr the embedded result has exitCode 1 (not
zero, success false) and error equal to the empty string. -/
theorem completion_result_no_generic_message :
    (completion_result "true" 1 "" "" 1048576).exitCode ≠ 0 ∧
    (completion_result "true" 1 "" "" 1048576).success = false ∧
    (completion_result "true" 1 "" "" 1048576).error = "" := by
  refine ⟨by decide, rfl, rfl⟩

/-- C5 amended: for every completed child, success is true exactly when
the exit code is 0, and on a non-zero exit the errorMessage is exactly the
captured stderr text (possibly empty; no generic fallback), while on a
zero exit it is empty. -/
theorem completion_result_exit_semantics :
    ∀ (command : String) (exit_code : Int) (stdout_str stderr_str : String) (max_size : Nat),
      ((completion_result command exit_code stdout_str stderr_str max_size).success = true ↔
        exit_code = 0) ∧
      ((completion_result command exit_code stdout_str stderr_str max_size).error
        = if exit_code ≠ 0 then stderr_str else "") := by
  intro command exit_code stdout_str stderr_str max_size
  constructor
  · show ((exit_code == 0) = true ↔ exit_code = 0)
    exact beq_iff_eq
  · show ((if exit_code != 0 then stderr_str else "") = if exit_code ≠ 0 then stderr_str else "")
    by_cases h : exit_code = 0
    · simp [h]
    · simp [h, bne_iff_ne]

/-- Witness for C5 amended: a child exiting 0 is reported successful. -/
theorem completion_result_exit_semantics_witness :
    (completion_result "ls -la" 0 "listing" "" 1048576).success = true :=
  (completion_result_exit_semantics "ls -la" 0 "listing" "" 1048576).1.mpr rfl

/-! ## Claim C6 -/

theorem string_length_take (s : String) (n : Nat) : (s.take n).length = min n s.length := by
  show (s.take n).data.length = min n s.data.length
  rw [String.data_take, List.length_take]

/-- C6: refuted as stated.  The claim measures the limit in bytes, but the
source compares len(output), which counts code points.  With
maxOutputSize 1, the one-character two-byte output of the combined stream
exceeds the limit in bytes, yet the code returns it unmodified with no
truncation marker. -/
theorem truncate_output_not_bytes :
    1 < (combined_output "é" "").utf8ByteSize ∧
    truncate_output (combined_output "é" "") 1 = "é" ∧
    (combined_output "é" "").length = 1 := by
  refine ⟨by decide, by decide, by decide⟩

/-- C6 amended: the completed output is stdout, then, when stderr is
non-empty, a stderr section under the STDERR: marker; when the combined
output has more than maxOutputSize characters (code points, the unit of
Python len and slicing — not bytes) it is truncated to exactly
maxOutputSize characters and the fixed truncation marker is appended, and
otherwise it is returned unmodified. -/
theorem truncate_output_char_semantics :
    ∀ (stdout_str stderr_str : String) (max_size : Nat),
      (stderr_str ≠ "" →
        combined_output stdout_str stderr_str = stdout_str ++ "\nSTDERR:\n" ++ stderr_str) ∧
      (stderr_str = "" → combined_output stdout_str stderr_str = stdout_str) ∧
      ((combined_output stdout_str stderr_str).length > max_size →
        truncate_output (combined_output stdout_str stderr_str) max_size
          = (combined_output stdout_str stderr_str).take max_size ++ "\n... [OUTPUT TRUNCATED]"
        ∧ ((combined_output stdout_str stderr_str).take max_size).length = max_size) ∧
      ((combined_output stdout_str stderr_str).length ≤ max_size →
        truncate_output (combined_output stdout_str stderr_str) max_size
          = combined_output stdout_str stderr_str) := by
  intro stdout_str stderr_str max_size
  refine ⟨fun h => by simp [combined_output, h], fun h => by simp [combined_output, h], ?_, ?_⟩
  · intro hgt
    refine ⟨by simp [truncate_output, hgt], ?_⟩
    rw [string_length_take]
    omega
  · intro hle
    have : ¬ (combined_output stdout_str stderr_str).length > max_size := by omega
    simp [truncate_output, this]

/-- Witness for C6 amended: a four-character output with limit 2 becomes
the two-character prefix plus the marker. -/
theorem truncate_output_char_semantics_witness :
    truncate_output (combined_output "abcd" "") 2
      = (combined_output "abcd" "").take 2 ++ "\n... [OUTPUT TRUNCATED]" :=
  ((truncate_output_char_semantics "abcd" "" 2).2.2.1 (by decide)).1

/-! ## Claim C7 -/

/-- C7: the timeout branch first sends SIGTERM to the process group, then
sleeps one second, then sends SIGKILL to the group exactly when the first
signal did not raise and the child is still alive after the grace period;
the two capture files are removed regardless of how the signalling went;
and the returned result has success false, exitCode -1, the timeout error
message and empty output. -/
theorem timeout_path_behaviour :
    ∀ (t : TempFiles) (sigterm_raises still_alive : Bool)
      (command : String) (timeout_sec : Option ℚ),
      (timeout_events t sigterm_raises still_alive).head? = some SandboxEvent.sigtermGroup ∧
      (sigterm_raises = false →
        SandboxEvent.graceSleep 1 ∈ timeout_events t sigterm_raises still_alive) ∧
      (SandboxEvent.sigkillGroup ∈ timeout_events t sigterm_raises still_alive ↔
        sigterm_raises = false ∧ still_alive = true) ∧
      SandboxEvent.removeTempFile t.output_file ∈ timeout_events t sigterm_raises still_alive ∧
      SandboxEvent.removeTempFile t.error_file ∈ timeout_events t sigterm_raises still_alive ∧
      (timeout_result command timeout_sec).success = false ∧
      (timeout_result command timeout_sec).exitCode = -1 ∧
      (timeout_result command timeout_sec).output = "" ∧
      (timeout_result command timeout_sec).error
        = "Command execution timed out after " ++ timeoutRepr timeout_sec ++ " seconds" := by
  intro t sigterm_raises still_alive command timeout_sec
  rcases sigterm_raises <;> rcases still_alive <;>
    simp [timeout_events, cleanup_events, timeout_result]

/-- Witness for C7: with a clean SIGTERM and a child surviving the grace
period, the SIGKILL to the process group is among the emitted events. -/
theorem timeout_path_behaviour_witness :
    SandboxEvent.sigkillGroup
      ∈ timeout_events (allocate_temp_files "/tmp" "u1" "r1" "u2" "r2") false true :=
  (timeout_path_behaviour (allocate_temp_files "/tmp" "u1" "r1" "u2" "r2")
    false true "sleep 5" (some 1)).2.2.1.mpr ⟨rfl, rfl⟩

/-! ## Claim C8 -/

theorem temp_output_ne_error_name :
    ∀ (tmpdir a b : String),
      tmpdir ++ ("/mcp_cmd_output_" ++ a) ≠ tmpdir ++ ("/mcp_cmd_error_" ++ b) := by
  intro tmpdir a b h
  have hd := congrArg String.data h
  rw [String.data_append, String.data_append, String.data_append, String.data_append] at hd
  have h2 := List.append_cancel_left hd
  have h3 := congrArg (List.take 12) h2
  rw [List.take_append_of_le_length (by decide),
    List.take_append_of_le_length (by decide)] at h3
  exact absurd h3 (by decide)

/-- C8: refuted as stated.  The claim says three temporary files are
allocated per invocation, one of them a generated shell script.  The
source allocates exactly two (the stdout and stderr captures); the
cd-and-run wrapper is the bash_script string handed to /bin/bash -c in
memory.  The session file list of a concrete invocation has length two,
not three. -/
theorem session_files_not_three :
    (session_files (allocate_temp_files "/tmp" "u1" "r1" "u2" "r2")).length = 2 ∧
    (session_files (allocate_temp_files "/tmp" "u1" "r1" "u2" "r2")).length ≠ 3 := by
  exact ⟨rfl, by decide⟩

/-- C8 amended: each invocation allocates exactly two uniquely named
temporary files under the system temp directory, a stdout capture with
prefix mcp_cmd_output_ and a stderr capture with prefix mcp_cmd_error_
(uuid and random token in the name, so the two names always differ); the
cd-wrapper command is an in-memory bash -c argument starting with
cd quoted-cwd, not a file; and on every run outcome both capture files
are removed before return — on the allocation-failure path exactly the
files that had been created are removed. -/
theorem temp_file_naming_and_cleanup :
    (∀ tmpdir output_uuid output_rand error_uuid error_rand : String,
      (∃ rest, (allocate_temp_files tmpdir output_uuid output_rand error_uuid error_rand).output_file
          = tmpdir ++ "/mcp_cmd_output_" ++ rest) ∧
      (∃ rest, (allocate_temp_files tmpdir output_uuid output_rand error_uuid error_rand).error_file
          = tmpdir ++ "/mcp_cmd_error_" ++ rest) ∧
      (allocate_temp_files tmpdir output_uuid output_rand error_uuid error_rand).output_file
        ≠ (allocate_temp_files tmpdir output_uuid output_rand error_uuid error_rand).error_file ∧
      (session_files (allocate_temp_files tmpdir output_uuid output_rand error_uuid error_rand)).length
        = 2) ∧
    (∀ cwd command o e : String,
      ∃ rest, bash_script cwd command o e = "cd " ++ shlex_quote cwd ++ rest) ∧
    (∀ t : TempFiles,
      (∀ (exit_code : Int) (stdout_str stderr_str : String),
        SandboxEvent.removeTempFile t.output_file
            ∈ run_events t (.completed exit_code stdout_str stderr_str) ∧
        SandboxEvent.removeTempFile t.error_file
            ∈ run_events t (.completed exit_code stdout_str stderr_str)) ∧
      (∀ sigterm_raises still_alive : Bool,
        SandboxEvent.removeTempFile t.output_file
            ∈ run_events t (.timedOut sigterm_raises still_alive) ∧
        SandboxEvent.removeTempFile t.error_file
            ∈ run_events t (.timedOut sigterm_raises still_alive)) ∧
      (∀ msg : String,
        SandboxEvent.removeTempFile t.output_file ∈ run_events t (.waitError msg) ∧
        SandboxEvent.removeTempFile t.error_file ∈ run_events t (.waitError msg)) ∧
      (∀ msg : String,
        run_events t (.allocFailed true msg) = [SandboxEvent.removeTempFile t.output_file]) ∧
      (∀ msg : String, run_events t (.allocFailed false msg) = [])) := by
  refine ⟨?_, ?_, ?_⟩
  · intro tmpdir output_uuid output_rand error_uuid error_rand
    refine ⟨⟨output_uuid ++ "_" ++ output_rand ++ ".txt", ?_⟩,
      ⟨error_uuid ++ "_" ++ error_rand ++ ".txt", ?_⟩,
      temp_output_ne_error_name tmpdir _ _, rfl⟩
    · exact (String.append_assoc tmpdir "/mcp_cmd_output_" _).symm
    · exact (String.append_assoc tmpdir "/mcp_cmd_error_" _).symm
  · intro cwd command o e
    refine ⟨" && TERM=dumb /bin/bash -l -c "
        ++ (shlex_quote command ++ (" > " ++ (shlex_quote o ++ (" 2> " ++ shlex_quote e)))), ?_⟩
    simp [bash_script, String.append_assoc]
  · intro t
    refine ⟨?_, ?_, ?_, fun _ => rfl, fun _ => rfl⟩
    · intro exit_code stdout_str stderr_str
      exact ⟨by simp [run_events, cleanup_events], by simp [run_events, cleanup_events]⟩
    · intro sigterm_raises still_alive
      rcases sigterm_raises <;> rcases still_alive <;>
        simp [run_events, timeout_events, cleanup_events]
    · intro msg
      exact ⟨by simp [run_events, cleanup_events], by simp [run_events, cleanup_events]⟩

/-- Witness for C8 amended: when the first temp-file creation already
failed, nothing is left to remove and the cleanup removes nothing. -/
theorem temp_file_naming_and_cleanup_witness :
    run_events (allocate_temp_files "/tmp" "u1" "r1" "u2" "r2") (.allocFailed false "boom") = [] :=
  (temp_file_naming_and_cleanup.2.2 (allocate_temp_files "/tmp" "u1" "r1" "u2" "r2")).2.2.2.2 "boom"

/-! ## Claim C9 -/

/-- C9: when the reload machinery fails in one of the ways the claim
names — the mtime probe of the policy file raises (file missing), or the
open-and-parse step raises (file unreadable or unparseable) —
check_config_updates returns normally with False (no reload) and the
module state, both the config snapshot and config_last_modified, is
exactly the previous state, so later validations keep using the stale
policy.  The embedded function is total: the try/except of the source is
the match on the error case, so no failure escapes. -/
theorem check_config_updates_failure_keeps_state :
    ∀ (st : ConfigState) (parsed : Except String Config)
      (new_mtime_res mtime_res : Except String Nat),
      (∀ e, mtime_res = .error e →
        check_config_updates mtime_res parsed new_mtime_res st = (st, false)) ∧
      (∀ e, parsed = .error e →
        check_config_updates mtime_res parsed new_mtime_res st = (st, false)) := by
  intro st parsed new_mtime_res mtime_res
  constructor
  · intro e he
    subst he
    rfl
  · intro e he
    subst he
    cases mtime_res with
    | error _ => rfl
    | ok m =>
      show (if st.config_last_modified < m then
        load_config (.error e) new_mtime_res st else (st, false)) = (st, false)
      by_cases h : st.config_last_modified < m
      · rw [if_pos h]; rfl
      · rw [if_neg h]

/-- Witness for C9: a missing policy file (mtime probe raises) leaves a
concrete state untouched and reports that no reload occurred. -/
theorem check_config_updates_failure_keeps_state_witness :
    check_config_updates (.error "No such file") (.ok sampleConfig) (.ok 7)
        ⟨sampleConfig, 3⟩ = (⟨sampleConfig, 3⟩, false) :=
  (check_config_updates_failure_keeps_state ⟨sampleConfig, 3⟩ (.ok sampleConfig)
    (.ok 7) (.error "No such file")).1 "No such file" rfl

/-! ## Claim C10 -/

/-- C10: timeout_sec = timeout if timeout else None maps an absent timeout
and a zero (falsy) timeout both to None, under which the wait on the
child never times out; consequently, over the data model of the spec
(timeouts are non-negative numbers), a timeout failure can only arise
from a strictly positive timeout value, and then only when the child
needs longer than it. -/
theorem timeout_zero_means_unbounded :
    ∀ (timeout : Option ℚ) (run_duration : ℚ),
      pyTimeoutSec none = none ∧
      pyTimeoutSec (some 0) = none ∧
      ((∀ v, timeout = some v → 0 ≤ v) →
        wait_times_out run_duration (pyTimeoutSec timeout) = true →
        ∃ v, timeout = some v ∧ 0 < v ∧ v < run_duration) := by
  intro timeout run_duration
  refine ⟨rfl, rfl, ?_⟩
  intro hnn hw
  cases timeout with
  | none => simp [pyTimeoutSec, wait_times_out] at hw
  | some v =>
    by_cases hv : v = 0
    · subst hv
      simp [pyTimeoutSec, wait_times_out] at hw
    · have hps : pyTimeoutSec (some v) = some v := by simp [pyTimeoutSec, hv]
      rw [hps] at hw
      have hlt : v < run_duration := by
        simpa [wait_times_out] using hw
      have h0 : 0 ≤ v := hnn v rfl
      exact ⟨v, rfl, lt_of_le_of_ne h0 (Ne.symm hv), hlt⟩

/-- Witness for C10: a two-second timeout against a three-second child
run yields a positive timeout value below the run duration. -/
theorem timeout_zero_means_unbounded_witness :
    ∃ v, (some (2 : ℚ)) = some v ∧ 0 < v ∧ v < 3 :=
  (timeout_zero_means_unbounded (some 2) 3).2.2
    (fun v hv => by
      injection hv with h
      rw [← h]
      norm_num)
    (by norm_num [pyTimeoutSec, wait_times_out])

end SimpleBashMcp
